import Mathlib

/-!
Verification of the god-watcher relay (src/main.rs) against its
natural-language specification.

The program resolves a vault's child addresses, opens one user-events
subscription per address, periodically tears down and re-establishes each
subscription (30 s refresh task, lines 83-120), buffers incoming fill
events (receive loop, lines 169-178) and flushes them once per second to a
Discord webhook (flush task, lines 128-167).

The shallow embedding below models:
- the trade-fill record and its message formatting (lines 133-141);
- the batched flush tick and the surrounding delivery loop (lines 128-167);
- the receive loop's message filtering (lines 169-178);
- the address-parsing / initial-subscription loop (lines 67-81);
- the resubscription cycle (lines 83-120), together with an explicit
  "world" of live (user, subscription id) pairs held by the event source,
  so that statements about outstanding handles per account can be made.

Calls into the event source and the webhook are resolved by explicit
oracles (functions giving each call's outcome), so theorems quantify over
every possible pattern of success and failure.
-/

namespace GodWatcher

/-- The fields of the SDK's TradeInfo record that the program reads
(side, coin and sz, lines 134-139). -/
structure TradeInfo where
  coin : String
  side : String
  sz : String
deriving DecidableEq, Repr

/-- Side tag translation (lines 134-138): "A" is rendered "Long",
"B" is rendered "Short", everything else "Unknown". -/
def sideLabel (side : String) : String :=
  if side = "A" then "Long" else if side = "B" then "Short" else "Unknown"

/-- One formatted message line (line 139): side label, coin and size
separated by single spaces. -/
def formatTrade (t : TradeInfo) : String :=
  sideLabel t.side ++ " " ++ t.coin ++ " " ++ t.sz

/-- Rust slice join with separator "\n" (line 141): empty list gives "",
a single line is kept as is, further lines are separated by one newline. -/
def joinLines : List String → String
  | [] => ""
  | [x] => x
  | x :: y :: rest => x ++ "\n" ++ joinLines (y :: rest)

/-- The body built at each flush tick (lines 133-141): every buffered
trade formatted, joined with newlines. -/
def flushMessage (trades : List TradeInfo) : String :=
  joinLines (trades.map formatTrade)

/-- One flush tick over the locked buffer (lines 132-147): the message is
built, the buffer is cleared, and no send happens when the message is
empty.  Returns the message to deliver (if any) and the new buffer. -/
def flushTick (trades : List TradeInfo) : Option String × List TradeInfo :=
  (if (flushMessage trades).length = 0 then none else some (flushMessage trades), [])

/-- Outcome of reqwest's error_for_status on an HTTP response (line 157):
it reports an error exactly for client-error (4xx) and server-error (5xx)
statuses. -/
def errorForStatus (status : Nat) : Bool :=
  400 ≤ status && status ≤ 599

/-- State of the flush task: the shared buffer, the bodies POSTed so far,
and the number of warnings logged so far. -/
structure FlushState where
  buffer : List TradeInfo
  attempts : List String
  warnings : Nat
deriving DecidableEq, Repr

/-- One full iteration of the flush loop (lines 129-166): the fills that
arrived since the last tick are appended to the buffer, the tick formats
and clears it, and a nonempty message is POSTed.  The delivery outcome is
an oracle value: none models a transport error (line 161, warn and
continue), some status models a response with that HTTP status, which is
logged as a warning exactly when error_for_status reports an error
(lines 155-159).  Failures never re-enter the buffer. -/
def flushLoopStep (s : FlushState) (arrivals : List TradeInfo) (outcome : Option Nat) :
    FlushState :=
  match (flushTick (s.buffer ++ arrivals)).1 with
  | none => ⟨(flushTick (s.buffer ++ arrivals)).2, s.attempts, s.warnings⟩
  | some message =>
      ⟨(flushTick (s.buffer ++ arrivals)).2, s.attempts ++ [message],
        s.warnings +
          (match outcome with
           | none => 1
           | some status => if errorForStatus status then 1 else 0)⟩

/-- Iterated flush loop over a schedule of (arrivals, delivery outcome)
pairs, one entry per one-second tick. -/
def flushLoopRun (s : FlushState) : List (List TradeInfo × Option Nat) → FlushState
  | [] => s
  | (a, o) :: rest => flushLoopRun (flushLoopStep s a o) rest

/-- The inbound channel's decoded messages (line 171-177): the User
variant carries the ordered fill records; every other variant (and a
closed channel) falls into the wildcard arm. -/
inductive Message where
  | user (fills : List TradeInfo)
  | other
deriving DecidableEq

/-- One iteration of the receive loop (lines 170-178): a User message
appends its fills to the shared buffer in order; anything else leaves the
buffer untouched. -/
def receiveStep (buffer : List TradeInfo) : Message → List TradeInfo
  | Message.user fills => buffer ++ fills
  | Message.other => buffer

/-- The receive loop over a finite stretch of inbound messages. -/
def receiveRun (buffer : List TradeInfo) : List Message → List TradeInfo
  | [] => buffer
  | m :: ms => receiveRun (receiveStep buffer m) ms

/-- The fills a message contributes to the buffer: its ordered records for
the User variant, nothing otherwise. -/
def fillsOf : Message → List TradeInfo
  | Message.user fills => fills
  | Message.other => []

/-- Hexadecimal digit test for H160 parsing. -/
def isHexDigit (c : Char) : Bool :=
  c.isDigit || (('a' ≤ c) && (c ≤ 'f')) || (('A' ≤ c) && (c ≤ 'F'))

/-- An optional leading "0x" tag is stripped before hex decoding. -/
def stripHexTag : List Char → List Char
  | '0' :: 'x' :: rest => rest
  | cs => cs

/-- H160::from_str (line 70): an optional "0x" is stripped, and
the rest must be exactly 40 hexadecimal characters.  The parsed address is
represented by its normalized 40-character hex string. -/
def parseH160 (s : String) : Option String :=
  let t := stripHexTag s.toList
  if t.length = 40 && t.all isHexDigit then some (String.mk t) else none

/-- The startup subscription loop (lines 67-81).  For each address string:
a parse failure aborts main through the ? operator (the whole process then
exits non-zero); on a successful parse the subscribe call is issued, its
outcome given by the oracle (some id on success); on subscribe failure the
account is only logged and skipped.  Returns the list of users for which a
subscribe call was issued (in order) together with either the abort cause
or the final (subscribed users, subscription ids) vectors. -/
def initLoop (subRes : Nat → Option Nat) :
    Nat → List String → List String × Except String (List String × List Nat)
  | _, [] => ([], Except.ok ([], []))
  | i, addr :: rest =>
    match parseH160 addr with
    | none => ([], Except.error addr)
    | some user =>
      match subRes i with
      | some id =>
          (user :: (initLoop subRes (i + 1) rest).1,
            (initLoop subRes (i + 1) rest).2.map fun p => (user :: p.1, id :: p.2))
      | none =>
          (user :: (initLoop subRes (i + 1) rest).1, (initLoop subRes (i + 1) rest).2)

/-- The set of live subscriptions held by the event source: one
(user, subscription id) pair per outstanding handle. -/
abbrev World := List (String × Nat)

/-- Calls issued by one iteration of the resubscription loop. -/
inductive RefreshEvent where
  | unsubCall (id : Nat)
  | subCall (user : String)
deriving DecidableEq

/-- Result of one iteration of the resubscription loop. -/
structure SlotResult where
  world : World
  newIds : List Nat
  failedIds : List Nat
  events : List RefreshEvent

/-- One iteration of the resubscription loop (lines 91-114) for the i-th
tracked id.  unsubscribe is attempted first; on failure the old id goes to
failed_subscription_ids and the iteration ends (lines 108-112).  On
success the handle is gone from the event source; if subscribed_users has
an i-th entry, subscribe is attempted for it: success installs the fresh
handle and records the new id (line 104), failure records the OLD id as
failed (line 100).  A missing user entry just continues (line 106).
A failed unsubscribe is modelled as leaving the old handle live. -/
def refreshSlot (unsubOk : Nat → Bool) (subRes : Nat → Option Nat) (users : List String)
    (i : Nat) (id : Nat) (w : World) : SlotResult :=
  if unsubOk i then
    match users[i]? with
    | some user =>
      match subRes i with
      | some newId =>
          ⟨(w.filter fun p => p.2 != id) ++ [(user, newId)], [newId], [],
            [RefreshEvent.unsubCall id, RefreshEvent.subCall user]⟩
      | none =>
          ⟨w.filter fun p => p.2 != id, [], [id],
            [RefreshEvent.unsubCall id, RefreshEvent.subCall user]⟩
    | none =>
        ⟨w.filter fun p => p.2 != id, [], [], [RefreshEvent.unsubCall id]⟩
  else
    ⟨w, [], [id], [RefreshEvent.unsubCall id]⟩

/-- Result of the whole per-cycle loop. -/
structure LoopResult where
  world : World
  newIds : List Nat
  failedIds : List Nat
  slotEvents : List (List RefreshEvent)

/-- The resubscription loop over all tracked ids (lines 89-114), threading
the event-source world through the iterations and collecting new ids,
failed ids and the calls made at each slot. -/
def refreshLoopFull (unsubOk : Nat → Bool) (subRes : Nat → Option Nat)
    (users : List String) : Nat → List Nat → World → LoopResult
  | _, [], w => ⟨w, [], [], []⟩
  | i, id :: rest, w =>
    let s := refreshSlot unsubOk subRes users i id w
    let r := refreshLoopFull unsubOk subRes users (i + 1) rest s.world
    ⟨r.world, s.newIds ++ r.newIds, s.failedIds ++ r.failedIds, s.events :: r.slotEvents⟩

/-- Vec::dedup (line 117): removes consecutive repeated elements, keeping
one element per run of equal neighbours. -/
def rustDedup : List Nat → List Nat
  | [] => []
  | a :: rest =>
    match rustDedup rest with
    | [] => [a]
    | b :: tail => if a = b then b :: tail else a :: b :: tail

/-- End state of one refresh cycle. -/
structure CycleResult where
  world : World
  committed : List Nat
  slotEvents : List (List RefreshEvent)

/-- One full refresh cycle (lines 87-118): the loop runs over every
tracked id, then the failed ids are appended after the new ids (line 116),
adjacent duplicates are removed (line 117) and the result is committed as
the next cycle's subscription_ids (line 118). -/
def refreshCycle (unsubOk : Nat → Bool) (subRes : Nat → Option Nat) (users : List String)
    (ids : List Nat) (w : World) : CycleResult :=
  ⟨(refreshLoopFull unsubOk subRes users 0 ids w).world,
    rustDedup ((refreshLoopFull unsubOk subRes users 0 ids w).newIds ++
      (refreshLoopFull unsubOk subRes users 0 ids w).failedIds),
    (refreshLoopFull unsubOk subRes users 0 ids w).slotEvents⟩

/-- Concrete run for the duplicate-subscription scenario: two watched
accounts, whose startup subscriptions succeeded with handles 10 and 11
(subscribed_users = [u0, u1], subscription_ids = [10, 11]). -/
def c1Users : List String := [("u0"), ("u1")]

/-- Event-source state right after the startup loop of the concrete run:
u0 holds handle 10 and u1 holds handle 11. -/
def c1WorldInit : World := [(("u0"), 10), (("u1"), 11)]

/-- First refresh cycle of the concrete run: unsubscribe(10) fails (slot
0), slot 1 refreshes u1 from handle 11 to fresh handle 21.  Line 116 then
appends the failed id after the new ids, committing subscription_ids =
[21, 10] — no longer aligned with subscribed_users = [u0, u1]. -/
def c1Cycle1 : CycleResult :=
  refreshCycle (fun i => !(i == 0)) (fun _ => some 21) c1Users [10, 11] c1WorldInit

/-- Second refresh cycle of the concrete run: slot 0 pairs u1's handle 21
with users[0] = u0, unsubscribes 21 and subscribes u0 (fresh handle 30)
even though u0's old handle 10 is still live; slot 1's retry of
unsubscribe(10) fails again. -/
def c1Cycle2 : CycleResult :=
  refreshCycle (fun i => i == 0) (fun _ => some 30) c1Users c1Cycle1.committed c1Cycle1.world

/-- Delivery events of the immediate dispatcher. -/
inductive ImmediateEvent where
  | deliver (body : String)
  | wait (seconds : Nat)
deriving DecidableEq

/-- Modelled from the spec: the immediate delivery mode of the
NotificationDispatcher.  It is absent from src/ (the spec attributes it to
other iterations in the repository's history); per the spec, each fill is
formatted and delivered synchronously, a fixed 5-second pacing wait
follows each successful delivery, and a delivery failure is fatal,
terminating the whole process with a non-zero exit (modelled as exit code
some 1).  The delivery outcome of the j-th fill is the oracle value at j. -/
def immediateRun (outcome : Nat → Bool) : Nat → List TradeInfo → List ImmediateEvent × Option Nat
  | _, [] => ([], none)
  | i, t :: ts =>
    if outcome i then
      (ImmediateEvent.deliver (formatTrade t) :: ImmediateEvent.wait 5 ::
          (immediateRun outcome (i + 1) ts).1,
        (immediateRun outcome (i + 1) ts).2)
    else
      ([ImmediateEvent.deliver (formatTrade t)], some 1)

/-- Modelled from the spec: the dispatcher's two delivery policies, to be
chosen by configuration (spec section 4.3). -/
inductive DeliveryMode where
  | batched
  | immediate
deriving DecidableEq

/-- Modelled from the spec: whether a delivery failure is fatal under each
policy (spec sections 4.3 and 7): batched drops the batch and continues,
immediate terminates the process. -/
def fatalOnDeliveryFailure : DeliveryMode → Bool
  | DeliveryMode.batched => false
  | DeliveryMode.immediate => true

/-! Helper lemmas. -/

lemma formatTrade_length_pos (t : TradeInfo) : 0 < (formatTrade t).length := by
  have h : (" " : String).length = 1 := rfl
  simp [formatTrade, String.length_append, h]

lemma flushMessage_length_pos (t : TradeInfo) (ts : List TradeInfo) :
    0 < (flushMessage (t :: ts)).length := by
  cases ts with
  | nil => simpa [flushMessage, joinLines] using formatTrade_length_pos t
  | cons t2 ts2 =>
    have h1 := formatTrade_length_pos t
    simp [flushMessage, joinLines, String.length_append]
    omega

/-! Claim theorems. -/

/-- Claim C5: each fill is rendered as side label, instrument and size
separated by single spaces, where side "A" is rendered "Long", "B" is
rendered "Short", and anything else "Unknown"; together with the three
concrete examples demanded by the spec. -/
theorem c5_format :
    (∀ coin sz : String, formatTrade ⟨coin, "A", sz⟩ = "Long" ++ " " ++ coin ++ " " ++ sz) ∧
    (∀ coin sz : String, formatTrade ⟨coin, "B", sz⟩ = "Short" ++ " " ++ coin ++ " " ++ sz) ∧
    (∀ side coin sz : String, side ≠ "A" → side ≠ "B" →
      formatTrade ⟨coin, side, sz⟩ = "Unknown" ++ " " ++ coin ++ " " ++ sz) ∧
    formatTrade ⟨"BTC", "A", "1.5"⟩ = "Long BTC 1.5" ∧
    formatTrade ⟨"ETH", "B", "2"⟩ = "Short ETH 2" ∧
    formatTrade ⟨"SOL", "X", "3"⟩ = "Unknown SOL 3" := by
  refine ⟨fun coin sz => ?_, fun coin sz => ?_, fun side coin sz hA hB => ?_, ?_, ?_, ?_⟩
  · rfl
  · rfl
  · simp only [formatTrade, sideLabel]
    rw [if_neg hA, if_neg hB]
  · rfl
  · rfl
  · rfl

/-- Witness for C5: the Unknown branch applied to the concrete side "C". -/
theorem c5_format_witness :
    formatTrade ⟨"SOL", "C", "9"⟩ = "Unknown" ++ " " ++ "SOL" ++ " " ++ "9" :=
  c5_format.2.2.1 ("C") ("SOL") ("9") (by decide) (by decide)

/-- Claim C6: a flush tick always clears the buffer; an empty buffer makes
no webhook call; a nonempty buffer is delivered as one message, the
formatted lines joined with single newlines — on the spec's example the
body is exactly "Long BTC 1\nShort ETH 2". -/
theorem c6_batched_flush :
    flushTick [] = (none, []) ∧
    (∀ trades : List TradeInfo, trades ≠ [] →
      flushTick trades = (some (flushMessage trades), [])) ∧
    flushTick [⟨"BTC", "A", "1"⟩, ⟨"ETH", "B", "2"⟩] =
      (some ("Long BTC 1\nShort ETH 2"), []) ∧
    (∀ trades : List TradeInfo, (flushTick trades).2 = []) := by
  refine ⟨rfl, fun trades h => ?_, by decide, fun trades => rfl⟩
  cases trades with
  | nil => exact absurd rfl h
  | cons t ts =>
    have hpos := flushMessage_length_pos t ts
    simp only [flushTick]
    rw [if_neg (by omega)]

/-- Witness for C6: the nonempty branch applied to one concrete fill. -/
theorem c6_batched_flush_witness :
    flushTick [⟨"SOL", "A", "10"⟩] = (some (flushMessage [⟨"SOL", "A", "10"⟩]), []) :=
  c6_batched_flush.2.1 [⟨"SOL", "A", "10"⟩] (by decide)

/-- Claim C8: the receive loop ignores every non-User message without
touching the buffer, appends the whole ordered fill sequence of a User
message to the buffer, and over any stretch of messages the buffer ends as
the original buffer followed by the User messages' fill batches, in
arrival order. -/
theorem c8_ingest_order :
    (∀ buffer fills : List TradeInfo,
      receiveStep buffer (Message.user fills) = buffer ++ fills) ∧
    (∀ buffer : List TradeInfo, receiveStep buffer Message.other = buffer) ∧
    (∀ (buffer : List TradeInfo) (msgs : List Message),
      receiveRun buffer msgs = buffer ++ (msgs.map fillsOf).flatten) := by
  refine ⟨fun buffer fills => rfl, fun buffer => rfl, fun buffer msgs => ?_⟩
  induction msgs generalizing buffer with
  | nil => simp [receiveRun]
  | cons m ms ih =>
    cases m with
    | user fills => simp [receiveRun, receiveStep, fillsOf, ih]
    | other => simp [receiveRun, receiveStep, fillsOf, ih]

lemma initLoop_abort (subRes : Nat → Option Nat) :
    ∀ (addrs : List String) (i k : Nat) (a : String),
      addrs.get? k = some a → parseH160 a = none →
      ((addrs.take k).all fun b => (parseH160 b).isSome) = true →
      (initLoop subRes i addrs).2 = Except.error a ∧
      (initLoop subRes i addrs).1 = (addrs.take k).filterMap parseH160 := by
  intro addrs
  induction addrs with
  | nil => intro i k a hk hbad hall; simp at hk
  | cons addr rest ih =>
    intro i k a hk hbad hall
    cases k with
    | zero =>
      have ha : addr = a := by simpa using hk
      subst ha
      simp [initLoop, hbad]
    | succ k =>
      have hget : rest.get? k = some a := by simpa using hk
      have hall2 : ((parseH160 addr).isSome &&
          ((rest.take k).all fun b => (parseH160 b).isSome)) = true := by
        simpa [List.all_cons] using hall
      rw [Bool.and_eq_true] at hall2
      obtain ⟨hhead, htail⟩ := hall2
      obtain ⟨user, huser⟩ := Option.isSome_iff_exists.mp hhead
      have hrec := ih (i + 1) k a hget hbad htail
      cases hs : subRes i with
      | some id =>
        refine ⟨?_, ?_⟩
        · simp [initLoop, huser, hs, hrec.1, Except.map]
        · simp [initLoop, huser, hs, hrec.2, List.take_succ_cons, List.filterMap_cons]
      | none =>
        refine ⟨?_, ?_⟩
        · simp [initLoop, huser, hs, hrec.1]
        · simp [initLoop, huser, hs, hrec.2, List.take_succ_cons, List.filterMap_cons]

/-- Claim C10: if the k-th child-address string fails to parse as an H160
address (all earlier ones parsing), the startup loop aborts main with that
error — the process exits non-zero — and the subscribe calls issued are
exactly those for the addresses strictly before position k; no later
account is ever subscribed. -/
theorem c10_parse_failure_aborts (subRes : Nat → Option Nat) (addrs : List String)
    (k : Nat) (a : String) (hk : addrs.get? k = some a) (hbad : parseH160 a = none)
    (hall : ((addrs.take k).all fun b => (parseH160 b).isSome) = true) :
    (initLoop subRes 0 addrs).2 = Except.error a ∧
    (initLoop subRes 0 addrs).1 = (addrs.take k).filterMap parseH160 :=
  initLoop_abort subRes addrs 0 k a hk hbad hall

/-- Witness for C10: a concrete good address followed by a malformed one. -/
theorem c10_parse_failure_aborts_witness :
    (initLoop (fun _ => some 7) 0
        [("0xaaaaaaaaaaaaaaaaaaaaaaaaaaaaaaaaaaaaaaaa"), ("nothex")]).2 =
      Except.error ("nothex") ∧
    (initLoop (fun _ => some 7) 0
        [("0xaaaaaaaaaaaaaaaaaaaaaaaaaaaaaaaaaaaaaaaa"), ("nothex")]).1 =
      (([("0xaaaaaaaaaaaaaaaaaaaaaaaaaaaaaaaaaaaaaaaa"), ("nothex")]).take 1).filterMap
        parseH160 :=
  c10_parse_failure_aborts (fun _ => some 7)
    [("0xaaaaaaaaaaaaaaaaaaaaaaaaaaaaaaaaaaaaaaaa"), ("nothex")] 1 ("nothex")
    (by decide) (by decide) (by decide)

/-- Claim C9 (modelled from the spec, immediate mode being absent from
src/): the dispatcher's delivery policy is a configuration choice, fatal
on delivery failure only in immediate mode; in immediate mode every fill
is formatted and delivered synchronously followed by a 5-second pacing
wait, and a delivery failure stops processing at that fill and terminates
the process with a non-zero exit code. -/
theorem c9_immediate_mode :
    fatalOnDeliveryFailure DeliveryMode.immediate = true ∧
    fatalOnDeliveryFailure DeliveryMode.batched = false ∧
    (∀ (outcome : Nat → Bool) (i : Nat) (fills : List TradeInfo),
      (∀ j, j < fills.length → outcome (i + j) = true) →
      immediateRun outcome i fills =
        ((fills.map fun t =>
            [ImmediateEvent.deliver (formatTrade t), ImmediateEvent.wait 5]).flatten,
          none)) ∧
    (∀ (outcome : Nat → Bool) (i k : Nat) (fills : List TradeInfo),
      k < fills.length →
      (∀ j, j < k → outcome (i + j) = true) → outcome (i + k) = false →
      immediateRun outcome i fills =
        (((fills.take k).map fun t =>
            [ImmediateEvent.deliver (formatTrade t), ImmediateEvent.wait 5]).flatten ++
          [ImmediateEvent.deliver (formatTrade (fills.getD k ⟨"", "", ""⟩))],
          some 1)) := by
  refine ⟨rfl, rfl, ?_, ?_⟩
  · intro outcome i fills h
    induction fills generalizing i with
    | nil => simp [immediateRun]
    | cons t ts ih =>
      have h0 : outcome i = true := by simpa using h 0 (Nat.succ_pos ts.length)
      have ih2 := ih (i + 1) fun j hj => by
        have hx := h (j + 1) (Nat.succ_lt_succ hj)
        have heq : i + (j + 1) = i + 1 + j := by omega
        rw [heq] at hx
        exact hx
      simp [immediateRun, h0, ih2]
  · intro outcome i k fills
    induction fills generalizing i k with
    | nil => intro hk; simp at hk
    | cons t ts ih =>
      intro hk hgood hbadk
      cases k with
      | zero =>
        have h0 : outcome i = false := by simpa using hbadk
        simp [immediateRun, h0]
      | succ k =>
        have h0 : outcome i = true := by simpa using hgood 0 (Nat.succ_pos k)
        have ihres := ih (i + 1) k (by simpa using hk)
          (fun j hj => by
            have hx := hgood (j + 1) (Nat.succ_lt_succ hj)
            have heq : i + (j + 1) = i + 1 + j := by omega
            rw [heq] at hx
            exact hx)
          (by
            have heq : i + 1 + k = i + (k + 1) := by omega
            rw [heq]
            exact hbadk)
        simp [immediateRun, h0, ihres, List.take_succ_cons, List.getD_cons_succ]

/-- Witness for C9: three fills with the second delivery failing. -/
theorem c9_immediate_mode_witness :
    immediateRun (fun j => j != 1) 0
        [⟨"BTC", "A", "1"⟩, ⟨"ETH", "B", "2"⟩, ⟨"SOL", "X", "3"⟩] =
      (((([⟨"BTC", "A", "1"⟩, ⟨"ETH", "B", "2"⟩, ⟨"SOL", "X", "3"⟩] : List TradeInfo).take 1).map
            fun t => [ImmediateEvent.deliver (formatTrade t), ImmediateEvent.wait 5]).flatten ++
        [ImmediateEvent.deliver (formatTrade
          (([⟨"BTC", "A", "1"⟩, ⟨"ETH", "B", "2"⟩, ⟨"SOL", "X", "3"⟩] : List TradeInfo).getD 1
            ⟨"", "", ""⟩))],
        some 1) :=
  c9_immediate_mode.2.2.2 (fun j => j != 1) 0 1
    [⟨"BTC", "A", "1"⟩, ⟨"ETH", "B", "2"⟩, ⟨"SOL", "X", "3"⟩]
    (by decide) (by decide) (by decide)

lemma rustDedup_mem {a : Nat} : ∀ {l : List Nat}, a ∈ l → a ∈ rustDedup l := by
  intro l h
  induction l with
  | nil => cases h
  | cons x rest ih =>
    rcases List.mem_cons.mp h with rfl | hrest
    · cases hd : rustDedup rest with
      | nil => simp [rustDedup, hd]
      | cons b tail =>
        by_cases hxb : a = b
        · simp [rustDedup, hd, hxb]
        · simp [rustDedup, hd, hxb]
    · have hin := ih hrest
      cases hd : rustDedup rest with
      | nil => rw [hd] at hin; cases hin
      | cons b tail =>
        rw [hd] at hin
        by_cases hxb : x = b
        · simpa [rustDedup, hd, hxb] using hin
        · simpa [rustDedup, hd, hxb] using List.mem_cons_of_mem x hin

lemma rustDedup_chain : ∀ l : List Nat, List.Chain' (fun a b => a ≠ b) (rustDedup l) := by
  intro l
  induction l with
  | nil => simp [rustDedup]
  | cons x rest ih =>
    cases hd : rustDedup rest with
    | nil => simp [rustDedup, hd]
    | cons b tail =>
      rw [hd] at ih
      by_cases hxb : x = b
      · have hr : rustDedup (x :: rest) = b :: tail := by simp [rustDedup, hd, hxb]
        rw [hr]
        exact ih
      · have hr : rustDedup (x :: rest) = x :: b :: tail := by simp [rustDedup, hd, hxb]
        rw [hr]
        exact List.chain'_cons.mpr ⟨hxb, ih⟩

lemma refreshSlot_events_world (unsubOk : Nat → Bool) (subRes : Nat → Option Nat)
    (users : List String) (i id : Nat) (w w' : World) :
    (refreshSlot unsubOk subRes users i id w).events =
      (refreshSlot unsubOk subRes users i id w').events := by
  cases h1 : unsubOk i <;> cases h2 : users[i]? <;> cases h3 : subRes i <;>
    simp [refreshSlot, h1, h2, h3]

lemma refreshSlot_unsub_mem (unsubOk : Nat → Bool) (subRes : Nat → Option Nat)
    (users : List String) (i id : Nat) (w : World) :
    RefreshEvent.unsubCall id ∈ (refreshSlot unsubOk subRes users i id w).events := by
  cases h1 : unsubOk i <;> cases h2 : users[i]? <;> cases h3 : subRes i <;>
    simp [refreshSlot, h1, h2, h3]

lemma refreshSlot_sub_mem (unsubOk : Nat → Bool) (subRes : Nat → Option Nat)
    (users : List String) (i id : Nat) (w : World) (user : String)
    (h1 : unsubOk i = true) (h2 : users[i]? = some user) :
    RefreshEvent.subCall user ∈ (refreshSlot unsubOk subRes users i id w).events := by
  cases h3 : subRes i <;> simp [refreshSlot, h1, h2, h3]

lemma refreshSlot_fail (unsubOk : Nat → Bool) (subRes : Nat → Option Nat)
    (users : List String) (i id : Nat) (w : World) (h1 : unsubOk i = false) :
    (refreshSlot unsubOk subRes users i id w).events = [RefreshEvent.unsubCall id] ∧
    (refreshSlot unsubOk subRes users i id w).failedIds = [id] := by
  simp [refreshSlot, h1]

lemma refreshLoopFull_slot (unsubOk : Nat → Bool) (subRes : Nat → Option Nat)
    (users : List String) :
    ∀ (ids : List Nat) (i : Nat) (w : World) (j : Nat), j < ids.length →
      (refreshLoopFull unsubOk subRes users i ids w).slotEvents.getD j [] =
        (refreshSlot unsubOk subRes users (i + j) (ids.getD j 0) w).events := by
  intro ids
  induction ids with
  | nil => intro i w j hj; simp at hj
  | cons id rest ih =>
    intro i w j hj
    cases j with
    | zero => simp [refreshLoopFull]
    | succ j =>
      have hj2 : j < rest.length := by simpa using hj
      have hunf : (refreshLoopFull unsubOk subRes users i (id :: rest) w).slotEvents =
          (refreshSlot unsubOk subRes users i id w).events ::
            (refreshLoopFull unsubOk subRes users (i + 1) rest
              (refreshSlot unsubOk subRes users i id w).world).slotEvents := rfl
      have heq : i + 1 + j = i + (j + 1) := by omega
      rw [hunf, List.getD_cons_succ, List.getD_cons_succ,
        ih (i + 1) (refreshSlot unsubOk subRes users i id w).world j hj2, heq]
      exact refreshSlot_events_world unsubOk subRes users (i + (j + 1)) (rest.getD j 0) _ w

lemma refreshLoopFull_failed_mem (unsubOk : Nat → Bool) (subRes : Nat → Option Nat)
    (users : List String) :
    ∀ (ids : List Nat) (i : Nat) (w : World) (j : Nat), j < ids.length →
      unsubOk (i + j) = false →
      ids.getD j 0 ∈ (refreshLoopFull unsubOk subRes users i ids w).failedIds := by
  intro ids
  induction ids with
  | nil => intro i w j hj hfail; simp at hj
  | cons id rest ih =>
    intro i w j hj hfail
    cases j with
    | zero =>
      have h1 : unsubOk i = false := by simpa using hfail
      have hs := (refreshSlot_fail unsubOk subRes users i id w h1).2
      simp [refreshLoopFull, hs]
    | succ j =>
      have hj2 : j < rest.length := by simpa using hj
      have hfail2 : unsubOk (i + 1 + j) = false := by
        have heq : i + 1 + j = i + (j + 1) := by omega
        rw [heq]
        exact hfail
      have hmem := ih (i + 1) (refreshSlot unsubOk subRes users i id w).world j hj2 hfail2
      simp only [refreshLoopFull, List.getD_cons_succ, List.mem_append]
      exact Or.inr hmem

/-- Claim C2: no matter which calls fail in a refresh cycle (the oracles
range over every outcome pattern), every tracked slot still gets its
unsubscribe attempted, and every slot whose own unsubscribe succeeded
(and that has a paired user) also gets its subscribe attempted — a
failure at one slot never stops the loop from processing the rest. -/
theorem c2_failure_isolation (unsubOk : Nat → Bool) (subRes : Nat → Option Nat)
    (users : List String) (ids : List Nat) (w : World) (j : Nat) (user : String)
    (hj : j < ids.length) :
    RefreshEvent.unsubCall (ids.getD j 0) ∈
      (refreshCycle unsubOk subRes users ids w).slotEvents.getD j [] ∧
    (unsubOk j = true → users[j]? = some user →
      RefreshEvent.subCall user ∈
        (refreshCycle unsubOk subRes users ids w).slotEvents.getD j []) := by
  have hc : (refreshCycle unsubOk subRes users ids w).slotEvents =
      (refreshLoopFull unsubOk subRes users 0 ids w).slotEvents := rfl
  rw [hc, refreshLoopFull_slot unsubOk subRes users ids 0 w j hj, Nat.zero_add]
  exact ⟨refreshSlot_unsub_mem unsubOk subRes users j (ids.getD j 0) w,
    fun h1 h2 => refreshSlot_sub_mem unsubOk subRes users j (ids.getD j 0) w user h1 h2⟩

/-- Witness for C2: slot 0's unsubscribe fails, slot 1 is still both
unsubscribed and resubscribed. -/
theorem c2_failure_isolation_witness :
    RefreshEvent.unsubCall 6 ∈
      (refreshCycle (fun i => !(i == 0)) (fun _ => some 9) [("x"), ("y")] [5, 6]
        []).slotEvents.getD 1 [] ∧
    RefreshEvent.subCall ("y") ∈
      (refreshCycle (fun i => !(i == 0)) (fun _ => some 9) [("x"), ("y")] [5, 6]
        []).slotEvents.getD 1 [] := by
  have h := c2_failure_isolation (fun i => !(i == 0)) (fun _ => some 9) [("x"), ("y")]
    [5, 6] [] 1 ("y") (by decide)
  exact ⟨h.1, h.2 (by decide) (by decide)⟩

/-- Claim C3: a slot whose unsubscribe call fails issues no subscribe call
in that cycle (its event list is exactly the one unsubscribe attempt), and
its old handle is kept in the committed subscription set, so teardown is
retried next cycle. -/
theorem c3_unsub_failure_retained (unsubOk : Nat → Bool) (subRes : Nat → Option Nat)
    (users : List String) (ids : List Nat) (w : World) (j : Nat)
    (hj : j < ids.length) (hfail : unsubOk j = false) :
    (refreshCycle unsubOk subRes users ids w).slotEvents.getD j [] =
      [RefreshEvent.unsubCall (ids.getD j 0)] ∧
    ids.getD j 0 ∈ (refreshCycle unsubOk subRes users ids w).committed := by
  constructor
  · have hc : (refreshCycle unsubOk subRes users ids w).slotEvents =
        (refreshLoopFull unsubOk subRes users 0 ids w).slotEvents := rfl
    rw [hc, refreshLoopFull_slot unsubOk subRes users ids 0 w j hj, Nat.zero_add]
    exact (refreshSlot_fail unsubOk subRes users j (ids.getD j 0) w hfail).1
  · have hmem := refreshLoopFull_failed_mem unsubOk subRes users ids 0 w j hj
      (by rw [Nat.zero_add]; exact hfail)
    have hc : (refreshCycle unsubOk subRes users ids w).committed =
        rustDedup ((refreshLoopFull unsubOk subRes users 0 ids w).newIds ++
          (refreshLoopFull unsubOk subRes users 0 ids w).failedIds) := rfl
    rw [hc]
    exact rustDedup_mem (List.mem_append_right _ hmem)

/-- Witness for C3: a single slot whose unsubscribe fails. -/
theorem c3_unsub_failure_retained_witness :
    (refreshCycle (fun _ => false) (fun _ => some 9) [("x")] [3] []).slotEvents.getD 0 [] =
      [RefreshEvent.unsubCall 3] ∧
    3 ∈ (refreshCycle (fun _ => false) (fun _ => some 9) [("x")] [3] []).committed := by
  have h := c3_unsub_failure_retained (fun _ => false) (fun _ => some 9) [("x")] [3] [] 0
    (by decide) (by decide)
  exact ⟨h.1, h.2⟩

/-- Counterexample to Claim C4 as stated: Vec::dedup (line 117) removes
only adjacent duplicates.  In a cycle whose slot 0 unsubscribe fails
(old id 1 goes to the failed list) while a later subscribe returns id 1
again, the committed list is [1, 2, 1], which still contains a duplicate:
the committed set is not duplicate-free. -/
theorem c4_counterexample :
    ¬ ((refreshCycle (fun i => !(i == 0)) (fun i => if i == 1 then some 1 else some 2)
        [("u0"), ("u1"), ("u2")] [1, 2, 3] []).committed.Nodup) := by decide

/-- Claim C4 amended: after every refresh cycle's pass the committed
subscription set contains no two ADJACENT equal handle entries; only
consecutive duplicates are removed, and non-adjacent duplicates may
survive into the committed set. -/
theorem c4_adjacent_dedup (unsubOk : Nat → Bool) (subRes : Nat → Option Nat)
    (users : List String) (ids : List Nat) (w : World) :
    List.Chain' (fun a b => a ≠ b) ((refreshCycle unsubOk subRes users ids w).committed) :=
  rustDedup_chain _

/-- Claim C1 is violated by the code (a bug): evaluating the embedded
refresh cycle on the concrete two-account run (startup handles 10 and 11;
cycle 1: unsubscribe(10) fails, u1 refreshed to handle 21, committing
[21, 10]; cycle 2: the reordered id list is paired with the unchanged
subscribed_users, so slot 0 unsubscribes u1's handle 21 and subscribes u0
again with fresh handle 30 while u0's old handle 10 is still live and its
unsubscribe fails again) leaves the event source holding TWO live
subscriptions for account u0 — (u0, 10) and (u0, 30) — and the manager
tracking both handles [30, 10]. -/
theorem c1_duplicate_subscription :
    c1Cycle2.world = [(("u0"), 10), (("u0"), 30)] ∧
    c1Cycle2.committed = [30, 10] ∧
    (c1Cycle2.world.countP fun p => p.1 == ("u0")) = 2 := by decide

lemma flushLoopStep_buffer (s : FlushState) (arrivals : List TradeInfo)
    (outcome : Option Nat) : (flushLoopStep s arrivals outcome).buffer = [] := by
  unfold flushLoopStep
  cases h : (flushTick (s.buffer ++ arrivals)).1 <;> simp [h, flushTick]

lemma flushTick_some {trades : List TradeInfo} {m : String}
    (h : (flushTick trades).1 = some m) : m = flushMessage trades := by
  by_cases hl : (flushMessage trades).length = 0
  · simp [flushTick, hl] at h
  · simp [flushTick, hl] at h
    exact h.symm

lemma flushLoopRun_attempts_congr :
    ∀ (rest : List (List TradeInfo × Option Nat)) (s t : FlushState),
      s.buffer = t.buffer → s.attempts = t.attempts →
      (flushLoopRun s rest).attempts = (flushLoopRun t rest).attempts := by
  intro rest
  induction rest with
  | nil => intro s t hb ha; simpa [flushLoopRun] using ha
  | cons p rest ih =>
    intro s t hb ha
    obtain ⟨a, o⟩ := p
    show (flushLoopRun (flushLoopStep s a o) rest).attempts =
      (flushLoopRun (flushLoopStep t a o) rest).attempts
    apply ih
    · rw [flushLoopStep_buffer, flushLoopStep_buffer]
    · unfold flushLoopStep
      rw [hb, ha]
      cases hf : (flushTick (t.buffer ++ a)).1 <;> simp [hf]

/-- Counterexample to Claim C7 as stated: the code warns only when
reqwest's error_for_status reports an error (4xx/5xx, line 157).  A
response with status 303 is a non-2xx response — a failed delivery in the
claim's sense — yet after a flush tick that POSTs one message and gets
status 303 back, zero warnings have been logged. -/
theorem c7_counterexample :
    (flushLoopStep ⟨[], [], 0⟩ [⟨"BTC", "A", "1"⟩] (some 303)).attempts.length = 1 ∧
    ¬ (200 ≤ 303 ∧ 303 ≤ 299) ∧
    (flushLoopStep ⟨[], [], 0⟩ [⟨"BTC", "A", "1"⟩] (some 303)).warnings = 0 := by decide

/-- Claim C7 amended: for every delivery attempt that fails with a
transport error or a 4xx/5xx response (what reqwest's error_for_status
treats as an error — other non-2xx statuses produce no warning), exactly
one warning is logged; the buffer stays cleared (the lost batch is not
requeued), the failed batch was already the attempted message, and the
whole future attempt sequence is identical to what it would have been had
the delivery succeeded — so subsequent batches are still delivered and
nothing is retried. -/
theorem c7_failure_isolation (s : FlushState) (arrivals : List TradeInfo)
    (outcome : Option Nat) (rest : List (List TradeInfo × Option Nat))
    (hsent : (flushTick (s.buffer ++ arrivals)).1.isSome = true)
    (hfail : outcome.elim True fun status => errorForStatus status = true) :
    (flushLoopStep s arrivals outcome).warnings = s.warnings + 1 ∧
    (flushLoopStep s arrivals outcome).buffer = [] ∧
    (flushLoopStep s arrivals outcome).attempts =
      s.attempts ++ [flushMessage (s.buffer ++ arrivals)] ∧
    (flushLoopRun (flushLoopStep s arrivals outcome) rest).attempts =
      (flushLoopRun (flushLoopStep s arrivals (some 204)) rest).attempts := by
  obtain ⟨m, hm⟩ := Option.isSome_iff_exists.mp hsent
  have hmsg := flushTick_some hm
  refine ⟨?_, flushLoopStep_buffer s arrivals outcome, ?_, ?_⟩
  · cases outcome with
    | none => simp [flushLoopStep, hm]
    | some status =>
      have hf : errorForStatus status = true := hfail
      simp [flushLoopStep, hm, hf]
  · rw [← hmsg]
    cases outcome <;> simp [flushLoopStep, hm]
  · apply flushLoopRun_attempts_congr
    · rw [flushLoopStep_buffer, flushLoopStep_buffer]
    · cases outcome <;> simp [flushLoopStep, hm]

/-- Witness for C7: a transport error on a nonempty flush, followed by one
more tick whose delivery succeeds. -/
theorem c7_failure_isolation_witness :
    (flushLoopStep ⟨[], [], 0⟩ [⟨"BTC", "A", "1"⟩] none).warnings =
      (⟨[], [], 0⟩ : FlushState).warnings + 1 ∧
    (flushLoopStep ⟨[], [], 0⟩ [⟨"BTC", "A", "1"⟩] none).buffer = [] ∧
    (flushLoopStep ⟨[], [], 0⟩ [⟨"BTC", "A", "1"⟩] none).attempts =
      (⟨[], [], 0⟩ : FlushState).attempts ++
        [flushMessage ((⟨[], [], 0⟩ : FlushState).buffer ++ [⟨"BTC", "A", "1"⟩])] ∧
    (flushLoopRun (flushLoopStep ⟨[], [], 0⟩ [⟨"BTC", "A", "1"⟩] none)
        [([⟨"ETH", "B", "2"⟩], some 200)]).attempts =
      (flushLoopRun (flushLoopStep ⟨[], [], 0⟩ [⟨"BTC", "A", "1"⟩] (some 204))
        [([⟨"ETH", "B", "2"⟩], some 200)]).attempts :=
  c7_failure_isolation ⟨[], [], 0⟩ [⟨"BTC", "A", "1"⟩] none
    [([⟨"ETH", "B", "2"⟩], some 200)] (by decide) trivial

end GodWatcher
